import Mathlib

/- Verification of the nebula-sdk-go client library against its specification.

   Shallow embedding conventions:
   * JSON documents are modelled by the inductive `Json`; a response body is the
     pair of its raw bytes (as a `String`) and its parse result (`Option Json`),
     standing for the outcome of `encoding/json` on those bytes.  Bodies are
     modelled below the 1 MiB read cap, so the limited reader is the identity,
     and body reads are assumed to succeed (an I/O failure mid-body is a
     transport-level concern outside the claims below).
   * The HTTP transport is a function from the built request to either a
     transport error (DNS failure, refused connection, timeout) or a response.
     `CallOutcome.sent` records the one request handed to the transport, if
     any; `sent = none` means no network I/O was performed.
   * Go errors created once at package initialisation (`errors.New` variables in
     errors.go) are `GoErr.sentinel`; errors allocated by `fmt.Errorf` at call
     time are `GoErr.fresh msg allocId`, where `allocId` is the identity of the
     allocation: two distinct calls never share it.  `goErrEq` models the Go
     `==` comparison of error interface values (pointer identity).
   * `errors.Is` on the SDK `*APIError` unwraps to the `Err` field, which the
     source builds as `fmt.Errorf("%w: %w", baseErr, underlyingErr)`; the two
     wrapped errors are the `base` and `underlying` fields here and
     `APIError.isBase` models the `errors.Is` test against one of them.
   * Go `strings` functions used by the source are re-modelled over character
     lists (`goTrimLeading` is strings.TrimPrefix, `goTrimTrailing` is
     strings.TrimSuffix, `goTrimSpace` is strings.TrimSpace restricted to ASCII
     whitespace, which is all the claims need).  `utf8Len` is the Go `len` on the
     UTF-8 bytes of a string.
-/

inductive Json where
  | null
  | bool (b : Bool)
  | num (n : Int)
  | str (s : String)
  | arr (elems : List Json)
  | obj (fields : List (String × Json))

/-- A record decoded from `map[string]interface type` is kept as its field list. -/
abbrev RecordObj := List (String × Json)

/-- A response body: the raw bytes together with their `encoding/json` parse result. -/
structure Body where
  raw : String
  json : Option Json

structure HttpResponse where
  statusCode : Nat
  body : Body

structure HttpRequest where
  method : String
  url : String
  headers : List (String × String)
  requestBody : Option Json

/-- The pluggable HTTP transport (`http.Client.Do`). -/
abbrev Transport := HttpRequest → Except String HttpResponse

/-- Client session state (client.go `Client`): the normalized base URL string and
the cached auth token.  The transport handle and timeout are passed per call. -/
structure ClientState where
  baseURL : String
  authToken : String
deriving DecidableEq

def listStarts : List Char → List Char → Bool
  | [], _ => true
  | _ :: _, [] => false
  | p :: ps, s :: ss => (p == s) && listStarts ps ss

def listEnds (s p : List Char) : Bool := listStarts p.reverse s.reverse

/-- strings.HasPrefix. -/
def strStarts (s p : String) : Bool := listStarts p.data s.data

/-- strings.HasSuffix. -/
def strEnds (s p : String) : Bool := listEnds s.data p.data

/-- strings.TrimPrefix: drop `p` from the front of `s` when it is there. -/
def goTrimLeading (s p : String) : String :=
  if strStarts s p then String.mk (s.data.drop p.data.length) else s

/-- strings.TrimSuffix: drop `p` from the end of `s` when it is there (one copy only). -/
def goTrimTrailing (s p : String) : String :=
  if strEnds s p then String.mk (s.data.take (s.data.length - p.data.length)) else s

def isSpaceChar (c : Char) : Bool :=
  c = ' ' || c = '\t' || c = '\n' || c = '\r' || c = '\x0b' || c = '\x0c'

/-- strings.TrimSpace (ASCII whitespace; the claims only use emptiness after trimming). -/
def goTrimSpace (s : String) : String :=
  String.mk (((s.data.dropWhile isSpaceChar).reverse.dropWhile isSpaceChar).reverse)

def lowerStr (s : String) : String := String.mk (s.data.map Char.toLower)

def charBytes (c : Char) : Nat :=
  if c.toNat < 128 then 1 else if c.toNat < 2048 then 2 else if c.toNat < 65536 then 3 else 4

/-- Go `len` of a string: its UTF-8 byte count. -/
def utf8Len (s : String) : Nat := s.data.foldl (fun n c => n + charBytes c) 0

/-- The package-level sentinel error variables of errors.go. -/
inductive Sentinel where
  | badRequest
  | unauthorized
  | forbidden
  | notFound
  | conflict
  | rateLimited
  | internalServer
  | invalidResponse
  | authTokenMissing
deriving DecidableEq

/-- A Go error value as compared by `==` / `errors.Is`: either one of the
package-level sentinels, or an error freshly allocated by `fmt.Errorf` whose
`allocId` is the identity of that allocation (distinct across calls). -/
inductive GoErr where
  | sentinel (s : Sentinel)
  | fresh (msg : String) (allocId : Nat)
deriving DecidableEq

/-- Go `==` on error interface values: sentinel variables are single global
allocations; `fmt.Errorf` results are equal only to themselves. -/
def goErrEq : GoErr → GoErr → Bool
  | .sentinel s, .sentinel t => decide (s = t)
  | .fresh _ i, .fresh _ j => decide (i = j)
  | _, _ => false

/-- errors.go `APIError`.  The source stores `Err = fmt.Errorf("%w: %w", baseErr,
underlyingErr)`; its two wrapped errors are kept here as `base` and `underlying`. -/
structure APIError where
  statusCode : Nat
  message : String
  base : GoErr
  underlying : Option GoErr
deriving DecidableEq

/-- errors.Is of an `*APIError` against a target: unwrap to `Err` and compare the
wrapped errors by identity. -/
def APIError.isBase (e : APIError) (target : GoErr) : Bool :=
  goErrEq e.base target ||
    (match e.underlying with
     | some u => goErrEq u target
     | none => false)

/-- The error values an SDK call can return: pre-flight validation errors built
by `errors.New` in the services, the `ErrAuthTokenMissing` sentinel, a wrapped
transport failure, a mapped `*APIError`, or an `ErrInvalidResponse` wrap. -/
inductive SdkErr where
  | localValidation (msg : String)
  | authTokenMissing
  | httpRequestFailed (msg : String)
  | api (e : APIError)
  | invalidResponse (cause : String)
deriving DecidableEq

/-- errors.Is of an `SdkErr` against one of the exported sentinel variables. -/
def sdkErrIsSentinel : SdkErr → Sentinel → Bool
  | .authTokenMissing, s => decide (s = .authTokenMissing)
  | .api e, s => e.isBase (.sentinel s)
  | .invalidResponse _, s => decide (s = .invalidResponse)
  | _, _ => false

def isLocalErr {α : Type} : Except SdkErr α → Bool
  | .error (.localValidation _) => true
  | _ => false

/-- Result of one SDK call: the returned value or error, plus the request that
was handed to the transport, when one was (`none` means no network I/O). -/
structure CallOutcome (α : Type) where
  result : Except SdkErr α
  sent : Option HttpRequest

/-- errors.go `mapHTTPError`.  The Go `switch` is written as the equivalent
if-chain; the default branch allocates a fresh bucket error with `fmt.Errorf`,
recorded with the allocation identity `a` of this call. -/
def mapHTTPError (statusCode : Nat) (apiMsg : String) (underlyingErr : Option GoErr)
    (a : Nat) : APIError :=
  let msg := if apiMsg = "" then "API returned status " ++ toString statusCode else apiMsg
  let baseErr : GoErr :=
    if statusCode = 400 then .sentinel .badRequest
    else if statusCode = 401 then .sentinel .unauthorized
    else if statusCode = 403 then .sentinel .forbidden
    else if statusCode = 404 then .sentinel .notFound
    else if statusCode = 409 then .sentinel .conflict
    else if statusCode = 429 then .sentinel .rateLimited
    else if statusCode = 500 then .sentinel .internalServer
    else if 400 ≤ statusCode ∧ statusCode < 500 then .fresh "unexpected client error" a
    else if 500 ≤ statusCode then .fresh "unexpected server error" a
    else .fresh "unexpected status code" a
  ⟨statusCode, msg, baseErr, underlyingErr⟩

/-- encoding/json: decode one string struct field from the keys of a JSON
object.  Keys are matched case-insensitively against the lowercase field tag
(Go prefers an exact match, which only differs when two keys collide up to
case); a later matching key overwrites an earlier one; a JSON null leaves the
field as it was; a value of any other non-string type aborts with an error. -/
def strField : List (String × Json) → String → String → Except String String
  | [], _, acc => .ok acc
  | (k, v) :: rest, name, acc =>
    if lowerStr k = name then
      match v with
      | .str s => strField rest name s
      | .null => strField rest name acc
      | _ => .error "cannot unmarshal into string field"
    else strField rest name acc

/-- encoding/json: decode one int64 struct field, as `strField`. -/
def intField : List (String × Json) → String → Int → Except String Int
  | [], _, acc => .ok acc
  | (k, v) :: rest, name, acc =>
    if lowerStr k = name then
      match v with
      | .num n => intField rest name n
      | .null => intField rest name acc
      | _ => .error "cannot unmarshal into int64 field"
    else intField rest name acc

/-- encoding/json: a JSON value decoded into a Go `string` element. -/
def jsonStringLit : Json → Except String String
  | .str s => .ok s
  | .null => .ok ""
  | _ => .error "cannot unmarshal into string"

/-- encoding/json: decode one `ListName []string` struct field; null leaves the
slice nil, an array fills it, anything else aborts. -/
def stringArrayField : List (String × Json) → String → Option (List String) →
    Except String (Option (List String))
  | [], _, acc => .ok acc
  | (k, v) :: rest, name, acc =>
    if lowerStr k = name then
      match v with
      | .null => stringArrayField rest name acc
      | .arr xs =>
        match xs.mapM jsonStringLit with
        | .ok ss => stringArrayField rest name (some ss)
        | .error e => .error e
      | _ => .error "cannot unmarshal into string slice"
    else stringArrayField rest name acc

/-- encoding/json: a JSON value decoded into `map[string]interface` (null gives a nil map). -/
def jsonToRecordObj : Json → Except String RecordObj
  | .null => .ok []
  | .obj kvs => .ok kvs
  | _ => .error "cannot unmarshal into map"

/-- encoding/json: unmarshal into `[]map[string]interface`; `none` is the nil
slice produced by a JSON null, `some` a real (possibly empty) slice. -/
def decodeRecordArray : Json → Except String (Option (List RecordObj))
  | .null => .ok none
  | .arr xs => (xs.mapM jsonToRecordObj).map some
  | _ => .error "cannot unmarshal into slice"

/-- encoding/json: unmarshal into `map[string]interface` for Record.Get;
`none` is the nil map produced by a JSON null. -/
def decodeRecordObject : Json → Except String (Option RecordObj)
  | .null => .ok none
  | .obj kvs => .ok (some kvs)
  | _ => .error "cannot unmarshal into map"

/-- models.go `ListDatabasesResponse`; `databases = none` is the nil slice. -/
structure ListDatabasesResponse where
  databases : Option (List String)

def decodeListDatabases : Json → Except String ListDatabasesResponse
  | .null => .ok ⟨none⟩
  | .obj kvs => (stringArrayField kvs "databases" none).map (fun d => ⟨d⟩)
  | _ => .error "cannot unmarshal into struct"

/-- models.go `ListTablesResponse`; `tables = none` is the nil slice. -/
structure ListTablesResponse where
  tables : Option (List String)

def decodeListTables : Json → Except String ListTablesResponse
  | .null => .ok ⟨none⟩
  | .obj kvs => (stringArrayField kvs "tables" none).map (fun d => ⟨d⟩)
  | _ => .error "cannot unmarshal into struct"

/-- models.go `LoginResponse`. -/
structure LoginResponse where
  message : String
  token : String

def decodeLoginResponse : Json → Except String LoginResponse
  | .null => .ok ⟨"", ""⟩
  | .obj kvs =>
    match strField kvs "message" "" with
    | .error e => .error e
    | .ok m =>
      match strField kvs "token" "" with
      | .error e => .error e
      | .ok t => .ok ⟨m, t⟩
  | _ => .error "cannot unmarshal into struct"

/-- models.go `CreateRecordResponse`. -/
structure CreateRecordResponse where
  message : String
  recordId : Int

def decodeCreateRecordResponse : Json → Except String CreateRecordResponse
  | .null => .ok ⟨"", 0⟩
  | .obj kvs =>
    match strField kvs "message" "" with
    | .error e => .error e
    | .ok m =>
      match intField kvs "record_id" 0 with
      | .error e => .error e
      | .ok n => .ok ⟨m, n⟩
  | _ => .error "cannot unmarshal into struct"

/-- request.go: `json.Unmarshal(respBytes, &apiErrResp)` for the standard error
body `ErrorResponse` with its single `error` field, followed by the read of
that field.  `.ok m` is a nil `jsonErr` with `apiErrResp.Error = m`. -/
def unmarshalErrorResponse (b : Body) : Except String String :=
  match b.json with
  | none => .error "invalid json"
  | some .null => .ok ""
  | some (.obj kvs) => strField kvs "error" ""
  | some _ => .error "cannot unmarshal into struct"

/-- request.go: `json.Unmarshal` of a success body into the response target
supplied by the caller, through the decoder of that target. -/
def unmarshalBody {α : Type} (b : Body) (dec : Json → Except String α) : Except String α :=
  match b.json with
  | none => .error "invalid json"
  | some j => dec j

/-- request.go lines 144-149: the synthesized message used when the error body
did not yield a usable server message, with the small-body excerpt rule. -/
def fallbackErrMsg (status : Nat) (raw : String) : String :=
  let base := "API returned status " ++ toString status
  if 0 < utf8Len raw ∧ utf8Len raw < 200 then base ++ " (" ++ raw ++ ")" else base

/-- request.go lines 138-151: the error message chosen for a status >= 400
response: the server `error` field when the body parsed and it is non-empty,
otherwise the synthesized fallback. -/
def classifyErrMsg (status : Nat) (b : Body) : String :=
  match unmarshalErrorResponse b with
  | .ok m => if m ≠ "" then m else fallbackErrMsg status b.raw
  | .error _ => fallbackErrMsg status b.raw

/-- client.go: the versioned API path constant. -/
def apiVersionPath : String := "/api/v1"

/-- client.go `getAPIPath`. -/
def getAPIPath (subPath : String) : String :=
  apiVersionPath ++ "/" ++ goTrimLeading subPath "/"

/-- request.go lines 103-104: the path-prefix auth gate condition of `doRequest`,
exactly as the source writes it. -/
def authGate (apiPath : String) : Bool :=
  strStarts apiPath (goTrimLeading apiVersionPath "/") && !(strStarts apiPath "auth/")

/-- request.go `doRequest`.  The response target pointer is modelled as an
optional decoder `decodeInto`; the decoded value is returned in the `Option α`
(`none` when no decoding happened).  `a` is the allocation identity used by a
`fmt.Errorf` this call may perform.  The source construct
`if gate then (if token empty then return ErrAuthTokenMissing); set header` is
written as one combined early-return condition plus a conditional header. -/
def doRequest {α : Type} (c : ClientState) (method apiPath : String)
    (requestBody : Option Json) (decodeInto : Option (Json → Except String α))
    (tr : Transport) (a : Nat) : CallOutcome (Option α) :=
  let fullURL := c.baseURL ++ goTrimLeading apiPath "/"
  if authGate apiPath = true ∧ c.authToken = "" then
    ⟨.error .authTokenMissing, none⟩
  else
    let headers := [("Accept", "application/json")]
      ++ (if requestBody.isSome then [("Content-Type", "application/json")] else [])
      ++ (if authGate apiPath = true then [("Authorization", "Bearer " ++ c.authToken)] else [])
    let req : HttpRequest := ⟨method, fullURL, headers, requestBody⟩
    match tr req with
    | .error msg => ⟨.error (.httpRequestFailed msg), some req⟩
    | .ok resp =>
      if 400 ≤ resp.statusCode then
        ⟨.error (.api (mapHTTPError resp.statusCode
            (classifyErrMsg resp.statusCode resp.body) none a)), some req⟩
      else
        match decodeInto with
        | some dec =>
          if resp.statusCode = 204 then ⟨.ok none, some req⟩
          else
            match unmarshalBody resp.body dec with
            | .ok v => ⟨.ok (some v), some req⟩
            | .error m => ⟨.error (.invalidResponse m), some req⟩
        | none => ⟨.ok none, some req⟩

/-- Abbreviation for `doRequest` instantiated at `Unit`, for calls whose `responseBody` is nil. -/
abbrev doRequestUnit (c : ClientState) (method apiPath : String) (requestBody : Option Json)
    (decodeInto : Option (Json → Except String Unit)) (tr : Transport) (a : Nat) :
    CallOutcome (Option Unit) :=
  doRequest c method apiPath requestBody decodeInto tr a

/-- net/url: the parsed URL, restricted to the field `NewClient` consults.  The
scheme is canonicalized to lowercase as the standard library does. -/
structure GoURL where
  scheme : String
deriving DecidableEq

def isSchemeTailChar (c : Char) : Bool :=
  c.isAlpha || c.isDigit || c = '+' || c = '-' || c = '.'

/-- net/url `ParseRequestURI`, modelled as far as `NewClient` depends on it: the
input must be an absolute URI (a valid scheme followed by a colon) or start
with a slash (scheme empty).  Finer stdlib validations (ports, percent
escapes, control characters) are outside every claim below. -/
def parseRequestURI (s : String) : Option GoURL :=
  let pre := s.data.takeWhile (fun c => c ≠ ':')
  let post := s.data.dropWhile (fun c => c ≠ ':')
  match post with
  | ':' :: _ =>
    match pre with
    | [] => none
    | c :: rest =>
      if c.isAlpha && rest.all isSchemeTailChar then
        some ⟨String.mk ((c :: rest).map Char.toLower)⟩
      else if listStarts ['/'] s.data then some ⟨""⟩
      else none
  | _ => if listStarts ['/'] s.data then some ⟨""⟩ else none

/-- client.go `NewClient`, for the fields the claims concern: base URL
validation and normalization, and the initial (empty) auth token.  The stored
`*url.URL` re-serialized by `baseURL.String()` is modelled as the normalized
input string. -/
def NewClient (baseURL : String) : Except String ClientState :=
  if baseURL = "" then .error "baseURL cannot be empty"
  else
    let b := goTrimTrailing baseURL "/" ++ "/"
    match parseRequestURI b with
    | none => .error "invalid baseURL"
    | some u =>
      if u.scheme ≠ "http" ∧ u.scheme ≠ "https" then
        .error "invalid baseURL scheme: must be http or https"
      else .ok ⟨b, ""⟩

/-- client.go `SetAuthToken`. -/
def SetAuthToken (c : ClientState) (token : String) : ClientState :=
  { c with authToken := token }

/-- client.go `ClearAuthToken`. -/
def ClearAuthToken (c : ClientState) : ClientState :=
  { c with authToken := "" }

def okE {ε α : Type} : Except ε α → Bool
  | .ok _ => true
  | .error _ => false

/-- record.go `buildRecordPath`. -/
def buildRecordPath (dbName tableName : String) : Except String String :=
  if goTrimSpace dbName = "" ∨ goTrimSpace tableName = "" then
    .error "database name and table name cannot be empty"
  else
    .ok (getAPIPath ("databases/" ++ dbName ++ "/tables/" ++ tableName ++ "/records"))

/-- record.go `buildSingleRecordPath`. -/
def buildSingleRecordPath (dbName tableName : String) (recordID : Int) :
    Except String String :=
  match buildRecordPath dbName tableName with
  | .error m => .error m
  | .ok basePath =>
    if recordID ≤ 0 then .error "record ID must be positive"
    else .ok (basePath ++ "/" ++ toString recordID)

def insertByKey (kv : String × String) : List (String × String) → List (String × String)
  | [] => [kv]
  | x :: xs => if kv.1 < x.1 then kv :: x :: xs else x :: insertByKey kv xs

/-- url.Values.Encode sorts by key. -/
def sortByKey (l : List (String × String)) : List (String × String) :=
  l.foldr insertByKey []

/-- url.Values.Encode, with percent-escaping modelled as the identity (every
filter value the claims use is escape-free). -/
def encodeQuery : List (String × String) → String
  | [] => ""
  | [(k, v)] => k ++ "=" ++ v
  | (k, v) :: rest => k ++ "=" ++ v ++ "&" ++ encodeQuery rest

/-- record.go `RecordService.Create`. -/
def RecordService.Create (c : ClientState) (dbName tableName : String)
    (recordData : List (String × Json)) (tr : Transport) (a : Nat) : CallOutcome Int :=
  if recordData.length = 0 then
    ⟨.error (.localValidation "record data cannot be empty"), none⟩
  else
    match buildRecordPath dbName tableName with
    | .error m => ⟨.error (.localValidation m), none⟩
    | .ok apiPath =>
      let r := doRequest c "POST" apiPath (some (Json.obj recordData))
        (some decodeCreateRecordResponse) tr a
      ⟨r.result.map (fun v => (v.getD ⟨"", 0⟩).recordId), r.sent⟩


/-- record.go `RecordService.Get`. -/
def RecordService.Get (c : ClientState) (dbName tableName : String) (recordID : Int)
    (tr : Transport) (a : Nat) : CallOutcome (Option RecordObj) :=
  match buildSingleRecordPath dbName tableName recordID with
  | .error m => ⟨.error (.localValidation m), none⟩
  | .ok apiPath =>
    let r := doRequest c "GET" apiPath none (some decodeRecordObject) tr a
    ⟨r.result.map (fun v => v.getD none), r.sent⟩

/-- record.go `RecordService.Update`. -/
def RecordService.Update (c : ClientState) (dbName tableName : String) (recordID : Int)
    (updateData : List (String × Json)) (tr : Transport) (a : Nat) : CallOutcome Unit :=
  if updateData.length = 0 then
    ⟨.error (.localValidation "update data cannot be empty"), none⟩
  else
    match buildSingleRecordPath dbName tableName recordID with
    | .error m => ⟨.error (.localValidation m), none⟩
    | .ok apiPath =>
      let r := doRequestUnit c "PUT" apiPath (some (Json.obj updateData)) none tr a
      ⟨r.result.map (fun _ => ()), r.sent⟩

/-- record.go `RecordService.Delete`. -/
def RecordService.Delete (c : ClientState) (dbName tableName : String) (recordID : Int)
    (tr : Transport) (a : Nat) : CallOutcome Unit :=
  match buildSingleRecordPath dbName tableName recordID with
  | .error m => ⟨.error (.localValidation m), none⟩
  | .ok apiPath =>
    let r := doRequestUnit c "DELETE" apiPath none none tr a
    ⟨r.result.map (fun _ => ()), r.sent⟩

/-- record.go `RecordService.List` (the filters-only listing in the source). -/
def RecordService.List (c : ClientState) (dbName tableName : String)
    (filters : List (String × String)) (tr : Transport) (a : Nat) :
    CallOutcome (List RecordObj) :=
  match buildRecordPath dbName tableName with
  | .error m => ⟨.error (.localValidation m), none⟩
  | .ok apiPath =>
    let kept := filters.filter (fun kv => kv.1 ≠ "")
    let apiPath2 :=
      if 0 < kept.length then apiPath ++ "?" ++ encodeQuery (sortByKey kept) else apiPath
    let r := doRequest c "GET" apiPath2 none (some decodeRecordArray) tr a
    ⟨r.result.map (fun v =>
        match v.getD none with
        | none => []
        | some xs => xs), r.sent⟩

/-- database.go `DatabaseService.Create`. -/
def DatabaseService.Create (c : ClientState) (dbName : String) (tr : Transport)
    (a : Nat) : CallOutcome Unit :=
  if goTrimSpace dbName = "" then
    ⟨.error (.localValidation "database name cannot be empty"), none⟩
  else
    let payload := Json.obj [("db_name", Json.str dbName)]
    let r := doRequestUnit c "POST" (getAPIPath "databases") (some payload) none tr a
    ⟨r.result.map (fun _ => ()), r.sent⟩


/-- database.go `DatabaseService.Delete`. -/
def DatabaseService.Delete (c : ClientState) (dbName : String) (tr : Transport)
    (a : Nat) : CallOutcome Unit :=
  if goTrimSpace dbName = "" then
    ⟨.error (.localValidation "database name cannot be empty"), none⟩
  else
    let r := doRequestUnit c "DELETE" (getAPIPath ("databases/" ++ dbName)) none none tr a
    ⟨r.result.map (fun _ => ()), r.sent⟩

/-- models.go `ColumnDefinition`. -/
structure ColumnDefinition where
  name : String
  colType : String

/-- models.go `SchemaPayload`. -/
structure SchemaPayload where
  tableName : String
  columns : List ColumnDefinition

def schemaPayloadJson (schema : SchemaPayload) : Json :=
  Json.obj [("table_name", Json.str schema.tableName),
    ("columns", Json.arr (schema.columns.map (fun col =>
      Json.obj [("name", Json.str col.name), ("type", Json.str col.colType)])))]

/-- database.go `DatabaseService.DefineSchema`. -/
def DatabaseService.DefineSchema (c : ClientState) (dbName : String)
    (schema : SchemaPayload) (tr : Transport) (a : Nat) : CallOutcome Unit :=
  if goTrimSpace dbName = "" then
    ⟨.error (.localValidation "database name cannot be empty"), none⟩
  else if goTrimSpace schema.tableName = "" then
    ⟨.error (.localValidation "table name cannot be empty"), none⟩
  else if schema.columns.length = 0 then
    ⟨.error (.localValidation "schema must contain at least one column"), none⟩
  else
    let r := doRequestUnit c "POST" (getAPIPath ("databases/" ++ dbName ++ "/schema"))
      (some (schemaPayloadJson schema)) none tr a
    ⟨r.result.map (fun _ => ()), r.sent⟩

/-- table.go `TableService.List`. -/
def TableService.List (c : ClientState) (dbName : String) (tr : Transport) (a : Nat) :
    CallOutcome (List String) :=
  if goTrimSpace dbName = "" then
    ⟨.error (.localValidation "database name cannot be empty"), none⟩
  else
    let r := doRequest c "GET" (getAPIPath ("databases/" ++ dbName ++ "/tables")) none
      (some decodeListTables) tr a
    ⟨r.result.map (fun v =>
        match (v.getD ⟨none⟩).tables with
        | none => []
        | some xs => xs), r.sent⟩

/-- table.go `TableService.Delete`. -/
def TableService.Delete (c : ClientState) (dbName tableName : String) (tr : Transport)
    (a : Nat) : CallOutcome Unit :=
  if goTrimSpace dbName = "" ∨ goTrimSpace tableName = "" then
    ⟨.error (.localValidation "database name and table name cannot be empty"), none⟩
  else
    let r := doRequestUnit c "DELETE"
      (getAPIPath ("databases/" ++ dbName ++ "/tables/" ++ tableName)) none none tr a
    ⟨r.result.map (fun _ => ()), r.sent⟩

/-- database.go `DatabaseService.List`. -/
def DatabaseService.List (c : ClientState) (tr : Transport) (a : Nat) :
    CallOutcome (List String) :=
  let r := doRequest c "GET" (getAPIPath "databases") none (some decodeListDatabases) tr a
  ⟨r.result.map (fun v =>
      match (v.getD ⟨none⟩).databases with
      | none => []
      | some xs => xs), r.sent⟩

/-- Outcome of `AuthService.Login`: the updated client state, the returned
token-or-error, and the request given to the transport, if any. -/
structure AuthOutcome where
  state : ClientState
  result : Except SdkErr String
  sent : Option HttpRequest

/-- auth.go `AuthService.Login`: on any error from the request the cached token
is cleared; on success the token from the response body is stored. -/
def AuthService.Login (c : ClientState) (email password : String) (tr : Transport)
    (a : Nat) : AuthOutcome :=
  if email = "" ∨ password = "" then
    ⟨c, .error (.localValidation "email and password cannot be empty"), none⟩
  else
    let payload := Json.obj [("email", Json.str email), ("password", Json.str password)]
    let r := doRequest c "POST" "auth/login" (some payload) (some decodeLoginResponse) tr a
    match r.result with
    | .error e => ⟨ClearAuthToken c, .error e, r.sent⟩
    | .ok v =>
      let tok := (v.getD ⟨"", ""⟩).token
      ⟨SetAuthToken c tok, .ok tok, r.sent⟩

/-- Modelled from the spec: the options-based record listing that consumes
`ListRecordsOptions` (models.go declares the options type, but the listing code
that translates `SortBy`/`SortDirection` into the wire `sort` parameter is not
among the source files under src).  Per the spec, the sort parameter is
`column:asc` or `column:desc` exactly when the direction is "asc" or "desc"
case-insensitively; otherwise the direction suffix is silently omitted and the
column alone is used. -/
def sortQueryParam (sortColumn sortDirection : String) : String :=
  let d := lowerStr sortDirection
  if d = "asc" ∨ d = "desc" then sortColumn ++ ":" ++ d else sortColumn

def hasAuthHeader : Option HttpRequest → Bool
  | none => false
  | some req => req.headers.any (fun kv => kv.1 = "Authorization")

/-- A transport whose one response is 200 with the empty JSON object. -/
def emptyObjTransport : Transport :=
  fun _ => .ok ⟨200, ⟨"\x7b\x7d", some (Json.obj [])⟩⟩

/-- A transport whose one response is 200 with a JSON null body. -/
def nullBodyTransport : Transport :=
  fun _ => .ok ⟨200, ⟨"null", some Json.null⟩⟩

/-- A transport answering a login with 200 and a token of "NEW". -/
def loginOkTransport : Transport :=
  fun _ => .ok ⟨200, ⟨"\x7b\"message\":\"ok\",\"token\":\"NEW\"\x7d",
    some (Json.obj [("message", Json.str "ok"), ("token", Json.str "NEW")])⟩⟩

/-- A transport answering a login with 401 and a structured error body. -/
def loginFailTransport : Transport :=
  fun _ => .ok ⟨401, ⟨"\x7b\"error\":\"invalid credentials\"\x7d",
    some (Json.obj [("error", Json.str "invalid credentials")])⟩⟩

/-- A transport that only fails; used to show a result cannot depend on the network. -/
def neverTransport : Transport :=
  fun _ => .error "network unreachable"

theorem data_append (s t : String) : (s ++ t).data = s.data ++ t.data := by
  rcases s with ⟨a⟩
  rcases t with ⟨b⟩
  rfl

theorem string_append_assoc (a b c : String) : (a ++ b) ++ c = a ++ (b ++ c) := by
  rcases a with ⟨x⟩
  rcases b with ⟨y⟩
  rcases c with ⟨z⟩
  exact congrArg String.mk (List.append_assoc x y z)

theorem string_ne_empty_of_data {s : String} (h : s.data ≠ []) : s ≠ "" := by
  intro he
  exact h (by rw [he])

theorem data_append_left_ne {s t : String} (h : s.data ≠ []) : (s ++ t).data ≠ [] := by
  rw [data_append]
  intro he
  exact h (List.append_eq_nil.mp he).1

/-- The auth-gate condition of `doRequest` is false on every path built by
`getAPIPath`: those paths start with a slash while the gate compares against
the prefix with its slash trimmed. -/
theorem authGate_getAPIPath (s : String) : authGate (getAPIPath s) = false := by
  rcases h : goTrimLeading s "/" with ⟨l⟩
  simp only [authGate, getAPIPath, apiVersionPath, h]
  rfl

theorem isLocalErr_localValidation {α : Type} (msg : String) :
    isLocalErr (Except.error (SdkErr.localValidation msg) : Except SdkErr α) = true := rfl

theorem isLocalErr_map {α β : Type} (f : α → β) (x : Except SdkErr α) :
    isLocalErr (x.map f) = isLocalErr x := by
  cases x with
  | error e => cases e <;> rfl
  | ok v => rfl

/-- The executor `doRequest` never produces a service-level validation error: those are
built only by the Resource Services before any request is attempted. -/
theorem doRequest_not_localValidation {α : Type} (c : ClientState) (m p : String)
    (rb : Option Json) (dec : Option (Json → Except String α)) (tr : Transport) (a : Nat) :
    isLocalErr (doRequest c m p rb dec tr a).result = false := by
  simp only [doRequest]
  split
  · rfl
  · split
    · rfl
    · split
      · rfl
      · split
        · split
          · rfl
          · split
            · rfl
            · rfl
        · rfl

theorem fallbackErrMsg_ne_empty (status : Nat) (raw : String) :
    fallbackErrMsg status raw ≠ "" := by
  have hA : ("API returned status " : String).data ≠ [] := by decide
  simp only [fallbackErrMsg]
  split
  · exact string_ne_empty_of_data
      (data_append_left_ne (data_append_left_ne (data_append_left_ne (data_append_left_ne hA))))
  · exact string_ne_empty_of_data (data_append_left_ne hA)

theorem classifyErrMsg_ne_empty (status : Nat) (b : Body) : classifyErrMsg status b ≠ "" := by
  cases h : unmarshalErrorResponse b with
  | ok msg =>
    by_cases hm : msg = ""
    · simp [classifyErrMsg, h, hm, fallbackErrMsg_ne_empty]
    · simp [classifyErrMsg, h, hm]
  | error e => simp [classifyErrMsg, h, fallbackErrMsg_ne_empty]

theorem strEnds_append_slash (s : String) : strEnds (s ++ "/") "/" = true := by
  rcases s with ⟨l⟩
  simp [strEnds, listEnds, data_append, listStarts]

/-- C1: the claim states that a `doRequest` call on a path under the versioned
API prefix with an empty cached token returns `ErrAuthTokenMissing` without any
network I/O, and that with a non-empty token the request carries a bearer
authorization header.  The code contradicts this: `getAPIPath` produces paths
with a leading slash ("/api/v1/..."), while the gate in `doRequest` compares
against the prefix with its slash trimmed ("api/v1"), so the gate never fires
for any service-built path.  A protected call with an empty token is dispatched
over the wire, succeeds, and carries no authorization header even when a token
is cached; the gate behaves as claimed only for a slash-less path that no
service ever builds. -/
theorem C1_auth_gate_never_fires :
    getAPIPath "databases" = "/api/v1/databases"
  ∧ authGate "/api/v1/databases" = false
  ∧ (DatabaseService.List ⟨"http://h/", ""⟩ emptyObjTransport 0).sent.isSome = true
  ∧ (DatabaseService.List ⟨"http://h/", ""⟩ emptyObjTransport 0).result = .ok []
  ∧ hasAuthHeader (DatabaseService.List ⟨"http://h/", "tok123"⟩ emptyObjTransport 0).sent = false
  ∧ (doRequestUnit ⟨"http://h/", ""⟩ "GET" "api/v1/databases" none none neverTransport 0).result
      = .error .authTokenMissing
  ∧ (doRequestUnit ⟨"http://h/", ""⟩ "GET" "api/v1/databases" none none neverTransport 0).sent
      = none
  ∧ hasAuthHeader
      (doRequestUnit ⟨"http://h/", "tok123"⟩ "GET" "api/v1/databases" none none
        emptyObjTransport 0).sent = true :=
  ⟨by decide, by decide, by decide, rfl, by decide, rfl, rfl, by decide⟩

/-- C3: for the spec-modelled options-based listing, the sort parameter is
`column:asc` or `column:desc` exactly when the direction is "asc" or "desc"
case-insensitively; any other direction keeps the column and omits the suffix. -/
theorem C3_sort_direction (col dir : String) :
    (lowerStr dir = "asc" → sortQueryParam col dir = col ++ ":asc")
  ∧ (lowerStr dir = "desc" → sortQueryParam col dir = col ++ ":desc")
  ∧ (lowerStr dir ≠ "asc" → lowerStr dir ≠ "desc" → sortQueryParam col dir = col) := by
  refine ⟨fun h => ?_, fun h => ?_, fun h1 h2 => ?_⟩
  · have h2 : sortQueryParam col dir = (col ++ ":") ++ "asc" := by simp [sortQueryParam, h]
    rw [h2, string_append_assoc]
    exact congrArg (fun x => col ++ x) (by decide)
  · have h2 : sortQueryParam col dir = (col ++ ":") ++ "desc" := by simp [sortQueryParam, h]
    rw [h2, string_append_assoc]
    exact congrArg (fun x => col ++ x) (by decide)
  · simp [sortQueryParam, h1, h2]

/-- Witness for C3 at concrete inputs: direction "ASC" yields "name:asc",
direction "upward" yields the bare column. -/
theorem C3_sort_direction_witness :
    sortQueryParam "name" "ASC" = "name" ++ ":asc"
  ∧ sortQueryParam "name" "upward" = "name" :=
  ⟨(C3_sort_direction "name" "ASC").1 (by decide),
   (C3_sort_direction "name" "upward").2.2 (by decide) (by decide)⟩

/-- C4: the claim states that a successful login overwrites the cached token, a
failed login clears it, and a subsequent protected-path call then fails with
`ErrAuthTokenMissing` rather than being sent.  The first two parts hold, and are
evaluated here: login against a 200 response with token "NEW" stores "NEW" over
"OLD", and login against a 401 clears the token.  The final part is contradicted
by the code: because the auth gate of `doRequest` never matches the
leading-slash paths built by `getAPIPath` (see C1), the subsequent protected
call is dispatched over the wire with no authorization header and succeeds,
instead of failing locally with `ErrAuthTokenMissing`. -/
theorem C4_login_token_lifecycle :
    (AuthService.Login ⟨"http://h/", "OLD"⟩ "u@x" "pw" loginOkTransport 0).state.authToken = "NEW"
  ∧ (AuthService.Login ⟨"http://h/", "OLD"⟩ "u@x" "pw" loginOkTransport 0).result = .ok "NEW"
  ∧ (AuthService.Login ⟨"http://h/", "OLD"⟩ "u@x" "pw" loginFailTransport 0).state.authToken = ""
  ∧ (AuthService.Login ⟨"http://h/", "OLD"⟩ "u@x" "pw" loginFailTransport 0).result
      = .error (.api (mapHTTPError 401 "invalid credentials" none 0))
  ∧ (DatabaseService.List
      (AuthService.Login ⟨"http://h/", "OLD"⟩ "u@x" "pw" loginFailTransport 0).state
      emptyObjTransport 1).sent.isSome = true
  ∧ (DatabaseService.List
      (AuthService.Login ⟨"http://h/", "OLD"⟩ "u@x" "pw" loginFailTransport 0).state
      emptyObjTransport 1).result = .ok []
  ∧ hasAuthHeader (DatabaseService.List
      (AuthService.Login ⟨"http://h/", "OLD"⟩ "u@x" "pw" loginFailTransport 0).state
      emptyObjTransport 1).sent = false :=
  ⟨rfl, rfl, rfl, rfl, by decide, rfl, by decide⟩

/-- Counterexample for C7: the unmapped-status buckets are not stable sentinel
values.  `mapHTTPError` reaches them through `fmt.Errorf`, which allocates a
fresh error value on every call, so two errors produced for the same unmapped
status (402 here) do not compare equal by identity. -/
theorem C7_counterexample_fresh_buckets :
    goErrEq (mapHTTPError 402 "payment required" none 0).base
        (mapHTTPError 402 "payment required" none 1).base = false
  ∧ (mapHTTPError 402 "payment required" none 0).base = .fresh "unexpected client error" 0
  ∧ (mapHTTPError 402 "payment required" none 1).base = .fresh "unexpected client error" 1 := by
  decide

/-- C7 (amended): every unmapped 4xx is classified into the
unmapped-client-error bucket and every unmapped 5xx into the
unmapped-server-error bucket, distinguished by their message and still carrying
the numeric status code; but each bucket error is freshly allocated per call, so
two errors for the same unmapped status class are distinct under identity
comparison rather than one stable sentinel. -/
theorem C7_unmapped_buckets_amended (status : Nat) (msg : String) (u : Option GoErr)
    (a b : Nat) (hge : 400 ≤ status)
    (hnm : status ∉ ([400, 401, 403, 404, 409, 429, 500] : List Nat)) :
    (status < 500 → (mapHTTPError status msg u a).base = .fresh "unexpected client error" a)
  ∧ (500 ≤ status → (mapHTTPError status msg u a).base = .fresh "unexpected server error" a)
  ∧ (mapHTTPError status msg u a).statusCode = status
  ∧ (a ≠ b →
      goErrEq (mapHTTPError status msg u a).base (mapHTTPError status msg u b).base = false) := by
  simp only [List.mem_cons, List.not_mem_nil, or_false, not_or] at hnm
  obtain ⟨h400, h401, h403, h404, h409, h429, h500⟩ := hnm
  refine ⟨fun hlt => ?_, fun hge5 => ?_, by simp [mapHTTPError], fun hab => ?_⟩
  · simp [mapHTTPError, h400, h401, h403, h404, h409, h429, h500, hge, hlt]
  · have hnlt : ¬(400 ≤ status ∧ status < 500) := by omega
    simp [mapHTTPError, h400, h401, h403, h404, h409, h429, h500, hnlt, hge5]
  · rcases Nat.lt_or_ge status 500 with hlt | hge5
    · simp [mapHTTPError, h400, h401, h403, h404, h409, h429, h500, hge, hlt, goErrEq, hab]
    · have hnlt : ¬(400 ≤ status ∧ status < 500) := by omega
      simp [mapHTTPError, h400, h401, h403, h404, h409, h429, h500, hnlt, hge5, goErrEq, hab]

/-- Witness for the amended C7 statement at status 418 with allocations 0 and 1. -/
theorem C7_unmapped_buckets_witness :
    (mapHTTPError 418 "teapot" none 0).base = .fresh "unexpected client error" 0
  ∧ goErrEq (mapHTTPError 418 "teapot" none 0).base
      (mapHTTPError 418 "teapot" none 1).base = false :=
  ⟨(C7_unmapped_buckets_amended 418 "teapot" none 0 1 (by decide) (by decide)).1 (by decide),
   (C7_unmapped_buckets_amended 418 "teapot" none 0 1 (by decide) (by decide)).2.2.2
     (by decide)⟩

/-- C2: for every response with status at least 400 (the transport below always
answers with `resp`), `doRequest` returns an error and never a decoded success
value; the error is the `APIError` produced by `mapHTTPError`, it carries the
numeric status code, and for each documented code it wraps the matching
sentinel in the `errors.Is` sense. -/
theorem C2_error_mapping {α : Type} (c : ClientState) (m p : String) (rb : Option Json)
    (dec : Option (Json → Except String α)) (resp : HttpResponse) (a : Nat)
    (hsc : 400 ≤ resp.statusCode)
    (hauth : ¬(authGate p = true ∧ c.authToken = "")) :
    ∃ e : APIError,
      (doRequest c m p rb dec (fun _ => .ok resp) a).result = .error (.api e)
      ∧ e.statusCode = resp.statusCode
      ∧ (resp.statusCode = 400 → e.isBase (.sentinel .badRequest) = true)
      ∧ (resp.statusCode = 401 → e.isBase (.sentinel .unauthorized) = true)
      ∧ (resp.statusCode = 403 → e.isBase (.sentinel .forbidden) = true)
      ∧ (resp.statusCode = 404 → e.isBase (.sentinel .notFound) = true)
      ∧ (resp.statusCode = 409 → e.isBase (.sentinel .conflict) = true)
      ∧ (resp.statusCode = 429 → e.isBase (.sentinel .rateLimited) = true)
      ∧ (resp.statusCode = 500 → e.isBase (.sentinel .internalServer) = true) := by
  refine ⟨mapHTTPError resp.statusCode (classifyErrMsg resp.statusCode resp.body) none a,
    ?_, by simp [mapHTTPError], ?_, ?_, ?_, ?_, ?_, ?_, ?_⟩
  · simp [doRequest, hauth, hsc]
  all_goals intro h
  all_goals rw [h]
  all_goals simp [mapHTTPError, APIError.isBase, goErrEq]

/-- Witness for C2: a 404 response with an unparsable body is mapped to an
error wrapping the not-found sentinel and carrying status 404. -/
theorem C2_error_mapping_witness :
    ∃ e : APIError,
      (doRequest ⟨"http://h/", ""⟩ "GET" "auth/x" none
          (some decodeRecordArray) (fun _ => .ok ⟨404, ⟨"nope", none⟩⟩) 0).result
        = .error (.api e)
      ∧ e.statusCode = (404 : Nat)
      ∧ ((404 : Nat) = 400 → e.isBase (.sentinel .badRequest) = true)
      ∧ ((404 : Nat) = 401 → e.isBase (.sentinel .unauthorized) = true)
      ∧ ((404 : Nat) = 403 → e.isBase (.sentinel .forbidden) = true)
      ∧ ((404 : Nat) = 404 → e.isBase (.sentinel .notFound) = true)
      ∧ ((404 : Nat) = 409 → e.isBase (.sentinel .conflict) = true)
      ∧ ((404 : Nat) = 429 → e.isBase (.sentinel .rateLimited) = true)
      ∧ ((404 : Nat) = 500 → e.isBase (.sentinel .internalServer) = true) :=
  C2_error_mapping ⟨"http://h/", ""⟩ "GET" "auth/x" none (some decodeRecordArray)
    ⟨404, ⟨"nope", none⟩⟩ 0 (by decide) (by decide)

/-- C5: for a 204 No Content response, `doRequest` succeeds and never consults
the body or the decoder, whatever they are, even though a response target was
supplied; and for a status in [200,400) other than 204 with a response target,
a decode failure is returned as an error wrapping the invalid-response
sentinel. -/
theorem C5_no_content_and_decode (c : ClientState) (m p : String) (rb : Option Json) (a : Nat)
    (hauth : ¬(authGate p = true ∧ c.authToken = "")) :
    (∀ (α : Type) (dec : Json → Except String α) (b : Body),
       (doRequest c m p rb (some dec) (fun _ => .ok ⟨204, b⟩) a).result = .ok none)
  ∧ (∀ (α : Type) (dec : Json → Except String α) (resp : HttpResponse) (em : String),
       200 ≤ resp.statusCode → resp.statusCode < 400 → resp.statusCode ≠ 204 →
       unmarshalBody resp.body dec = .error em →
       (doRequest c m p rb (some dec) (fun _ => .ok resp) a).result
         = .error (.invalidResponse em)
       ∧ sdkErrIsSentinel (.invalidResponse em) .invalidResponse = true) := by
  constructor
  · intro α dec b
    simp [doRequest, hauth]
  · intro α dec resp em h200 h400 h204 hdec
    refine ⟨?_, rfl⟩
    have hnle : ¬ 400 ≤ resp.statusCode := by omega
    simp [doRequest, hauth, hnle, h204, hdec]

/-- Witness for C5: a 204 response with a non-nil target succeeds with nothing
decoded, and a 200 response whose body is not JSON yields the invalid-response
error. -/
theorem C5_no_content_and_decode_witness :
    (doRequest ⟨"http://h/", ""⟩ "GET" "auth/x" none (some decodeRecordArray)
       (fun _ => .ok ⟨204, ⟨"", none⟩⟩) 0).result = .ok none
  ∧ ((doRequest ⟨"http://h/", ""⟩ "GET" "auth/x" none (some decodeRecordArray)
       (fun _ => .ok ⟨200, ⟨"not json", none⟩⟩) 0).result
      = .error (.invalidResponse "invalid json")
     ∧ sdkErrIsSentinel (.invalidResponse "invalid json") .invalidResponse = true) :=
  ⟨(C5_no_content_and_decode ⟨"http://h/", ""⟩ "GET" "auth/x" none 0 (by decide)).1
      _ decodeRecordArray ⟨"", none⟩,
   (C5_no_content_and_decode ⟨"http://h/", ""⟩ "GET" "auth/x" none 0 (by decide)).2
      _ decodeRecordArray ⟨200, ⟨"not json", none⟩⟩ "invalid json"
      (by decide) (by decide) (by decide) rfl⟩

/-- C6: when classifying a status-at-least-400 response, the error message is
the server `error` field exactly when the body unmarshals into the standard
error shape with a non-empty message; otherwise it is synthesized as
"API returned status code", with the raw body appended in parentheses exactly
when the body is non-empty and shorter than 200 bytes. -/
theorem C6_error_message_rule {α : Type} (c : ClientState) (m p : String) (rb : Option Json)
    (dec : Option (Json → Except String α)) (resp : HttpResponse) (a : Nat)
    (hsc : 400 ≤ resp.statusCode)
    (hauth : ¬(authGate p = true ∧ c.authToken = "")) :
    ∃ e : APIError,
      (doRequest c m p rb dec (fun _ => .ok resp) a).result = .error (.api e)
      ∧ ((∃ msg, unmarshalErrorResponse resp.body = .ok msg ∧ msg ≠ "" ∧ e.message = msg)
         ∨ ((unmarshalErrorResponse resp.body = .ok ""
              ∨ okE (unmarshalErrorResponse resp.body) = false)
            ∧ e.message =
                (if 0 < utf8Len resp.body.raw ∧ utf8Len resp.body.raw < 200 then
                   "API returned status " ++ toString resp.statusCode
                     ++ " (" ++ resp.body.raw ++ ")"
                 else "API returned status " ++ toString resp.statusCode))) := by
  refine ⟨mapHTTPError resp.statusCode (classifyErrMsg resp.statusCode resp.body) none a,
    ?_, ?_⟩
  · simp [doRequest, hauth, hsc]
  · have hne := classifyErrMsg_ne_empty resp.statusCode resp.body
    have hmsg : (mapHTTPError resp.statusCode
        (classifyErrMsg resp.statusCode resp.body) none a).message
        = classifyErrMsg resp.statusCode resp.body := by
      simp [mapHTTPError, hne]
    cases h : unmarshalErrorResponse resp.body with
    | ok msg =>
      by_cases hm : msg = ""
      · refine Or.inr ⟨Or.inl (by rw [hm]), ?_⟩
        rw [hmsg]
        simp [classifyErrMsg, h, hm, fallbackErrMsg]
      · refine Or.inl ⟨msg, rfl, hm, ?_⟩
        rw [hmsg]
        simp [classifyErrMsg, h, hm]
    | error err =>
      refine Or.inr ⟨Or.inr rfl, ?_⟩
      rw [hmsg]
      simp [classifyErrMsg, h, fallbackErrMsg]

/-- Witness for C6: a 503 response whose body is the eight-byte non-JSON text
"downtime" yields the synthesized message with the body excerpt appended. -/
theorem C6_error_message_rule_witness :
    ∃ e : APIError,
      (doRequest ⟨"http://h/", ""⟩ "GET" "auth/x" none
          (some decodeRecordArray) (fun _ => .ok ⟨503, ⟨"downtime", none⟩⟩) 0).result
        = .error (.api e)
      ∧ ((∃ msg, unmarshalErrorResponse (⟨"downtime", none⟩ : Body) = .ok msg ∧ msg ≠ ""
            ∧ e.message = msg)
         ∨ ((unmarshalErrorResponse (⟨"downtime", none⟩ : Body) = .ok ""
              ∨ okE (unmarshalErrorResponse (⟨"downtime", none⟩ : Body)) = false)
            ∧ e.message =
                (if 0 < utf8Len "downtime" ∧ utf8Len "downtime" < 200 then
                   "API returned status " ++ toString (503 : Nat) ++ " (" ++ "downtime" ++ ")"
                 else "API returned status " ++ toString (503 : Nat)))) :=
  C6_error_message_rule ⟨"http://h/", ""⟩ "GET" "auth/x" none (some decodeRecordArray)
    ⟨503, ⟨"downtime", none⟩⟩ 0 (by decide) (by decide)

/-- Counterexample for C8: the normalization does not ensure a single trailing
slash.  `strings.TrimSuffix` removes at most one copy of "/", so the base URL
"http://x//" is stored as "http://x//", which ends in two path separators. -/
theorem C8_counterexample_double_slash :
    NewClient "http://x//" = .ok ⟨"http://x//", ""⟩
  ∧ goTrimTrailing "http://x//" "/" ++ "/" = "http://x//"
  ∧ strEnds "http://x//" "//" = true :=
  ⟨rfl, by decide, by decide⟩

/-- C8 (amended): `NewClient` succeeds exactly when the base URL is non-empty
and its normalization parses as an absolute URL with scheme http or https; on
success the stored base URL ends with a path separator (one "/" is appended
after removing at most one existing trailing "/", so extra trailing slashes are
preserved), the auth token starts empty, and no later operation (manual token
set/clear, login) modifies the stored base URL. -/
theorem C8_newClient_amended (bu : String) :
    (okE (NewClient bu) = true ↔
      bu ≠ "" ∧ ∃ u, parseRequestURI (goTrimTrailing bu "/" ++ "/") = some u
        ∧ (u.scheme = "http" ∨ u.scheme = "https"))
  ∧ (∀ cs, NewClient bu = .ok cs → strEnds cs.baseURL "/" = true ∧ cs.authToken = "")
  ∧ (∀ cs tok, (SetAuthToken cs tok).baseURL = cs.baseURL)
  ∧ (∀ cs, (ClearAuthToken cs).baseURL = cs.baseURL)
  ∧ (∀ cs em pw tr a, ((AuthService.Login cs em pw tr a).state).baseURL = cs.baseURL) := by
  refine ⟨⟨fun hok => ?_, fun hrhs => ?_⟩, fun cs h => ?_, fun cs tok => rfl, fun cs => rfl,
    fun cs em pw tr a => ?_⟩
  · by_cases hbu : bu = ""
    · simp [NewClient, hbu, okE] at hok
    · refine ⟨hbu, ?_⟩
      rcases hp : parseRequestURI (goTrimTrailing bu "/" ++ "/") with _ | u
      · simp [NewClient, hbu, hp, okE] at hok
      · by_cases hs : u.scheme ≠ "http" ∧ u.scheme ≠ "https"
        · simp [NewClient, hbu, hp, hs, okE] at hok
        · refine ⟨u, rfl, ?_⟩
          rcases not_and_or.mp hs with h1 | h2
          · exact Or.inl (not_not.mp h1)
          · exact Or.inr (not_not.mp h2)
  · obtain ⟨hbu, u, hp, hsch⟩ := hrhs
    have hs : ¬(u.scheme ≠ "http" ∧ u.scheme ≠ "https") := by
      rcases hsch with h | h
      · exact fun hc => hc.1 h
      · exact fun hc => hc.2 h
    simp [NewClient, hbu, hp, hs, okE]
  · by_cases hbu : bu = ""
    · simp [NewClient, hbu] at h
    · rcases hp : parseRequestURI (goTrimTrailing bu "/" ++ "/") with _ | u
      · simp [NewClient, hbu, hp] at h
      · by_cases hs : u.scheme ≠ "http" ∧ u.scheme ≠ "https"
        · simp [NewClient, hbu, hp, hs] at h
        · simp only [NewClient, hbu, hp, hs, if_neg, if_false] at h
          have h2 : (⟨goTrimTrailing bu "/" ++ "/", ""⟩ : ClientState) = cs := by
            have := h
            simp [hbu, hs] at this
            exact this
          rw [← h2]
          exact ⟨strEnds_append_slash _, rfl⟩
  · simp only [AuthService.Login]
    split
    · rfl
    · split
      · rfl
      · rfl

/-- Witness for the amended C8 statement: a well-formed https base URL is
accepted and stored with its trailing separator. -/
theorem C8_newClient_witness :
    okE (NewClient "https://example.com") = true
  ∧ strEnds ("https://example.com/" : String) "/" = true :=
  ⟨(C8_newClient_amended "https://example.com").1.mpr
      ⟨by decide, ⟨"https"⟩, by decide, Or.inr rfl⟩,
   ((C8_newClient_amended "https://example.com").2.1 ⟨"https://example.com/", ""⟩ rfl).1⟩

/-- C9: every Database/Table/Record service method fails with a purely local
validation error, handing nothing to the transport, exactly when an identifier
is blank after trimming, a required payload is empty, or a record identifier is
non-positive — and such validation errors are never one of the HTTP-mapped
sentinel kinds.  (The Auth service performs its own distinct empty-email or
empty-password check, outside the identifier/payload conditions enumerated by
the claim.) -/
theorem C9_preflight_validation :
    (∀ (msg : String) (s : Sentinel), sdkErrIsSentinel (.localValidation msg) s = false)
  ∧ (∀ c db tbl data tr a,
      (isLocalErr (RecordService.Create c db tbl data tr a).result = true
        ∧ (RecordService.Create c db tbl data tr a).sent = none)
      ↔ (data.length = 0 ∨ goTrimSpace db = "" ∨ goTrimSpace tbl = ""))
  ∧ (∀ c db tbl filters tr a,
      (isLocalErr (RecordService.List c db tbl filters tr a).result = true
        ∧ (RecordService.List c db tbl filters tr a).sent = none)
      ↔ (goTrimSpace db = "" ∨ goTrimSpace tbl = ""))
  ∧ (∀ c db tbl rid tr a,
      (isLocalErr (RecordService.Get c db tbl rid tr a).result = true
        ∧ (RecordService.Get c db tbl rid tr a).sent = none)
      ↔ (goTrimSpace db = "" ∨ goTrimSpace tbl = "" ∨ rid ≤ 0))
  ∧ (∀ c db tbl rid data tr a,
      (isLocalErr (RecordService.Update c db tbl rid data tr a).result = true
        ∧ (RecordService.Update c db tbl rid data tr a).sent = none)
      ↔ (data.length = 0 ∨ goTrimSpace db = "" ∨ goTrimSpace tbl = "" ∨ rid ≤ 0))
  ∧ (∀ c db tbl rid tr a,
      (isLocalErr (RecordService.Delete c db tbl rid tr a).result = true
        ∧ (RecordService.Delete c db tbl rid tr a).sent = none)
      ↔ (goTrimSpace db = "" ∨ goTrimSpace tbl = "" ∨ rid ≤ 0))
  ∧ (∀ c db tr a,
      (isLocalErr (DatabaseService.Create c db tr a).result = true
        ∧ (DatabaseService.Create c db tr a).sent = none)
      ↔ goTrimSpace db = "")
  ∧ (∀ c tr a, isLocalErr (DatabaseService.List c tr a).result = false)
  ∧ (∀ c db tr a,
      (isLocalErr (DatabaseService.Delete c db tr a).result = true
        ∧ (DatabaseService.Delete c db tr a).sent = none)
      ↔ goTrimSpace db = "")
  ∧ (∀ c db schema tr a,
      (isLocalErr (DatabaseService.DefineSchema c db schema tr a).result = true
        ∧ (DatabaseService.DefineSchema c db schema tr a).sent = none)
      ↔ (goTrimSpace db = "" ∨ goTrimSpace schema.tableName = ""
          ∨ schema.columns.length = 0))
  ∧ (∀ c db tr a,
      (isLocalErr (TableService.List c db tr a).result = true
        ∧ (TableService.List c db tr a).sent = none)
      ↔ goTrimSpace db = "")
  ∧ (∀ c db tbl tr a,
      (isLocalErr (TableService.Delete c db tbl tr a).result = true
        ∧ (TableService.Delete c db tbl tr a).sent = none)
      ↔ (goTrimSpace db = "" ∨ goTrimSpace tbl = "")) := by
  refine ⟨fun msg s => rfl, ?_, ?_, ?_, ?_, ?_, ?_, ?_, ?_, ?_, ?_, ?_⟩
  · intro c db tbl data tr a
    by_cases hD : data.length = 0 <;> by_cases hA : goTrimSpace db = "" <;>
      by_cases hB : goTrimSpace tbl = "" <;>
      simp [RecordService.Create, buildRecordPath, hD, hA, hB, isLocalErr_localValidation,
        isLocalErr_map, doRequest_not_localValidation]
  · intro c db tbl filters tr a
    by_cases hA : goTrimSpace db = "" <;> by_cases hB : goTrimSpace tbl = "" <;>
      simp [RecordService.List, buildRecordPath, hA, hB, isLocalErr_localValidation,
        isLocalErr_map, doRequest_not_localValidation]
  · intro c db tbl rid tr a
    by_cases hA : goTrimSpace db = "" <;> by_cases hB : goTrimSpace tbl = "" <;>
      by_cases hC : rid ≤ 0 <;>
      simp [RecordService.Get, buildSingleRecordPath, buildRecordPath, hA, hB, hC,
        isLocalErr_localValidation, isLocalErr_map, doRequest_not_localValidation]
  · intro c db tbl rid data tr a
    by_cases hD : data.length = 0 <;> by_cases hA : goTrimSpace db = "" <;>
      by_cases hB : goTrimSpace tbl = "" <;> by_cases hC : rid ≤ 0 <;>
      simp [RecordService.Update, buildSingleRecordPath, buildRecordPath, hD, hA, hB, hC,
        isLocalErr_localValidation, isLocalErr_map, doRequest_not_localValidation]
  · intro c db tbl rid tr a
    by_cases hA : goTrimSpace db = "" <;> by_cases hB : goTrimSpace tbl = "" <;>
      by_cases hC : rid ≤ 0 <;>
      simp [RecordService.Delete, buildSingleRecordPath, buildRecordPath, hA, hB, hC,
        isLocalErr_localValidation, isLocalErr_map, doRequest_not_localValidation]
  · intro c db tr a
    by_cases hA : goTrimSpace db = "" <;>
      simp [DatabaseService.Create, hA, isLocalErr_localValidation,
        isLocalErr_map, doRequest_not_localValidation]
  · intro c tr a
    simp [DatabaseService.List, isLocalErr_map, doRequest_not_localValidation]
  · intro c db tr a
    by_cases hA : goTrimSpace db = "" <;>
      simp [DatabaseService.Delete, hA, isLocalErr_localValidation,
        isLocalErr_map, doRequest_not_localValidation]
  · intro c db schema tr a
    by_cases hA : goTrimSpace db = "" <;> by_cases hB : goTrimSpace schema.tableName = "" <;>
      by_cases hC : schema.columns.length = 0 <;>
      simp [DatabaseService.DefineSchema, hA, hB, hC, isLocalErr_localValidation,
        isLocalErr_map, doRequest_not_localValidation]
  · intro c db tr a
    by_cases hA : goTrimSpace db = "" <;>
      simp [TableService.List, hA, isLocalErr_localValidation,
        isLocalErr_map, doRequest_not_localValidation]
  · intro c db tbl tr a
    by_cases hA : goTrimSpace db = "" <;> by_cases hB : goTrimSpace tbl = "" <;>
      simp [TableService.Delete, hA, hB, isLocalErr_localValidation,
        isLocalErr_map, doRequest_not_localValidation]

/-- Witness for C9: creating a record under a whitespace-only database name
fails locally with nothing sent, and that validation error matches no sentinel. -/
theorem C9_preflight_validation_witness :
    (isLocalErr (RecordService.Create ⟨"http://h/", "t"⟩ " " "tbl"
        [("a", Json.null)] neverTransport 0).result = true
      ∧ (RecordService.Create ⟨"http://h/", "t"⟩ " " "tbl"
          [("a", Json.null)] neverTransport 0).sent = none)
  ∧ sdkErrIsSentinel (.localValidation "database name and table name cannot be empty")
      .notFound = false :=
  ⟨(C9_preflight_validation.2.1 ⟨"http://h/", "t"⟩ " " "tbl" [("a", Json.null)]
      neverTransport 0).mpr (Or.inr (Or.inl (by decide))),
   C9_preflight_validation.1 "database name and table name cannot be empty" .notFound⟩

/-- C10: on success the list operations never hand back the nil collection:
when the decoded server response is a JSON null (Records.List) or the response
slice field of the response object is absent (Databases.List, Tables.List), each returns the
empty list with no error. -/
theorem C10_lists_non_nil (c : ClientState) (db tbl : String) (a : Nat)
    (hdb : ¬ goTrimSpace db = "") (htbl : ¬ goTrimSpace tbl = "") :
    (RecordService.List c db tbl [] nullBodyTransport a).result = .ok []
  ∧ (DatabaseService.List c emptyObjTransport a).result = .ok []
  ∧ (TableService.List c db emptyObjTransport a).result = .ok [] := by
  refine ⟨?_, ?_, ?_⟩
  · simp [RecordService.List, buildRecordPath, hdb, htbl, doRequest, authGate_getAPIPath,
      nullBodyTransport, unmarshalBody, decodeRecordArray, Except.map]
  · simp [DatabaseService.List, doRequest, authGate_getAPIPath, emptyObjTransport,
      unmarshalBody, decodeListDatabases, stringArrayField, Except.map]
  · simp [TableService.List, hdb, doRequest, authGate_getAPIPath, emptyObjTransport,
      unmarshalBody, decodeListTables, stringArrayField, Except.map]

/-- Witness for C10 at concrete names: all three listings return the empty,
non-nil collection when the server body decodes to null or lacks the slice. -/
theorem C10_lists_non_nil_witness :
    (RecordService.List ⟨"http://h/", "t"⟩ "db" "tbl" [] nullBodyTransport 0).result = .ok []
  ∧ (DatabaseService.List ⟨"http://h/", "t"⟩ emptyObjTransport 0).result = .ok []
  ∧ (TableService.List ⟨"http://h/", "t"⟩ "db" emptyObjTransport 0).result = .ok [] :=
  C10_lists_non_nil ⟨"http://h/", "t"⟩ "db" "tbl" 0 (by decide) (by decide)
